import Mathlib

/-!
Shallow embedding of the ffplayer sources (clock.c, packet_queue.c,
decoder.c, ff_player.c) for checking the natural-language specification.

Modelling conventions:
* C `double` values are modelled by `ℚ` (exact arithmetic); a `double`
  that can be NaN is modelled by `Option ℚ`, with `none` standing for NaN.
  NaN propagates through arithmetic via `Option.map`.
* C `int`, `int64_t` and `size_t` are modelled by unbounded `ℤ`: no
  operation embedded here is close to overflowing in the program.
* Stateful C functions become pure functions from the old state to the
  new state (paired with the C return value where there is one).
* Thread interleaving is not modelled: each embedded function is the
  effect of one call executed without interference, which matches the
  mutex discipline of the source.
-/

set_option maxHeartbeats 1000000

namespace FFPlayer

/-! ## packet_queue.c -/

/-- Model of `AVPacket` as far as the queue accounting observes it:
its byte size (`pkt->size`) and its duration in stream ticks. -/
structure AVPacket where
  size : ℤ
  duration : ℤ
  deriving DecidableEq, Repr

/-- Model of `struct packet` (packet_queue.c lines 17-20): a stored
packet together with the serial stamped on it at enqueue time. -/
structure packet_t where
  base : AVPacket
  serial : ℤ
  deriving DecidableEq, Repr

/-- The per-entry overhead `sizeof(packet_t)` added to the byte
accounting; its concrete value is implementation defined, 16 on the
usual 64-bit ABI. -/
def sizeof_packet_t : ℤ := 16

/-- Model of `struct ff_packet_queue` (packet_queue.c lines 22-31).
The `AVFifo` is modelled as a list, head = next packet to dequeue. -/
structure ff_packet_queue_t where
  packets : List packet_t
  packet_count : ℤ
  size : ℤ
  duration : ℤ
  aborted : Bool
  serial : ℤ
  deriving DecidableEq, Repr

/-- State of a queue fresh out of `ff_packet_queue_create`
(packet_queue.c lines 53-72): calloc zeroes every counter and the
serial, the fifo is empty, and the queue starts aborted. -/
def ff_packet_queue_create : ff_packet_queue_t :=
  { packets := [], packet_count := 0, size := 0, duration := 0,
    aborted := true, serial := 0 }

/-- Embedding of `packet_queue_put_private` (packet_queue.c lines
33-51): fails with -1 on an aborted queue, otherwise stamps the packet
with the current serial, appends it, and updates the counters.
`av_fifo_write` with `AV_FIFO_FLAG_AUTO_GROW` is modelled as always
succeeding. Returns the C return value and the new queue state. -/
def packet_queue_put_private (queue : ff_packet_queue_t) (av_packet : AVPacket) :
    ℤ × ff_packet_queue_t :=
  if queue.aborted then (-1, queue)
  else
    let packet : packet_t := { base := av_packet, serial := queue.serial }
    (0, { queue with
          packets := queue.packets ++ [packet],
          packet_count := queue.packet_count + 1,
          size := queue.size + packet.base.size + sizeof_packet_t,
          duration := queue.duration + packet.base.duration })

/-- Embedding of `ff_packet_queue_put` (packet_queue.c lines 137-153):
under the lock it is exactly `packet_queue_put_private`; the
`av_packet_alloc` / free bookkeeping does not touch the queue state. -/
def ff_packet_queue_put (queue : ff_packet_queue_t) (src : AVPacket) :
    ℤ × ff_packet_queue_t :=
  packet_queue_put_private queue src

/-- Embedding of `ff_packet_queue_flush` (packet_queue.c lines
106-118): drain every entry, zero the counters, increment the serial. -/
def ff_packet_queue_flush (queue : ff_packet_queue_t) : ff_packet_queue_t :=
  { queue with
    packets := [], packet_count := 0, size := 0, duration := 0,
    serial := queue.serial + 1 }

/-- Embedding of `ff_packet_queue_start` (packet_queue.c lines
120-125): clear the aborted flag and increment the serial. -/
def ff_packet_queue_start (queue : ff_packet_queue_t) : ff_packet_queue_t :=
  { queue with aborted := false, serial := queue.serial + 1 }

/-- Embedding of `ff_packet_queue_abort` (packet_queue.c lines
127-135): set the aborted flag. -/
def ff_packet_queue_abort (queue : ff_packet_queue_t) : ff_packet_queue_t :=
  { queue with aborted := true }

/-- Possible outcomes of `ff_packet_queue_get`: `abort` is the C
return -1, `got p` is return 1 with packet and serial copied out,
`empty` is the non-blocking return 0, and `wouldBlock` marks the
blocking call parked on the condvar with the queue unchanged. -/
inductive GetResult where
  | abort
  | got (p : packet_t)
  | empty
  | wouldBlock
  deriving DecidableEq, Repr

/-- Embedding of `ff_packet_queue_get` (packet_queue.c lines 160-191)
for one pass of its loop without interference: the aborted check comes
first, before the fifo read, so an aborted queue returns -1 at once
even if packets are still stored and even when `block` is set. -/
def ff_packet_queue_get (queue : ff_packet_queue_t) (block : Bool) :
    GetResult × ff_packet_queue_t :=
  if queue.aborted then (.abort, queue)
  else
    match queue.packets with
    | packet :: rest =>
        (.got packet,
         { queue with
           packets := rest,
           packet_count := queue.packet_count - 1,
           size := queue.size - (packet.base.size + sizeof_packet_t),
           duration := queue.duration - packet.base.duration })
    | [] => if block then (.wouldBlock, queue) else (.empty, queue)

/-- Queue states reachable through the public operations, starting
from the state `ff_packet_queue_create` returns. -/
inductive QueueReachable : ff_packet_queue_t → Prop where
  | create : QueueReachable ff_packet_queue_create
  | put (q : ff_packet_queue_t) (pkt : AVPacket) :
      QueueReachable q → QueueReachable (packet_queue_put_private q pkt).2
  | get (q : ff_packet_queue_t) (block : Bool) :
      QueueReachable q → QueueReachable (ff_packet_queue_get q block).2
  | flush (q : ff_packet_queue_t) :
      QueueReachable q → QueueReachable (ff_packet_queue_flush q)
  | start (q : ff_packet_queue_t) :
      QueueReachable q → QueueReachable (ff_packet_queue_start q)
  | abort (q : ff_packet_queue_t) :
      QueueReachable q → QueueReachable (ff_packet_queue_abort q)

/-! ## clock.c

The `int *queue_serial` pointer held by the clock is modelled by
passing the pointee's current value as an argument to the operations
that dereference it (`ff_clock_get`, and through it
`ff_clock_set_speed`). `av_gettime_relative()/1e6` is modelled by
passing the current wall time as an argument. -/

/-- Model of `ff_clock_t` (clock.h): `pts` and `pts_drift` may be NaN
(`none`); `serial` is the stored serial compared against the live
queue serial on reads. -/
structure ff_clock_t where
  pts : Option ℚ
  pts_drift : Option ℚ
  last_updated : ℚ
  speed : ℚ
  paused : Bool
  serial : ℤ
  deriving DecidableEq, Repr

/-- Embedding of `ff_clock_set_at` (clock.c lines 25-30): store the
pts, the update time, the drift `pts - time` (NaN when pts is NaN)
and the serial. -/
def ff_clock_set_at (clock : ff_clock_t) (pts : Option ℚ) (serial : ℤ)
    (time : ℚ) : ff_clock_t :=
  { clock with
    pts := pts,
    last_updated := time,
    pts_drift := pts.map (fun p => p - time),
    serial := serial }

/-- Embedding of `ff_clock_set` (clock.c lines 32-35): `set_at` at the
current wall time, which the model receives as `time`. -/
def ff_clock_set (clock : ff_clock_t) (pts : Option ℚ) (serial : ℤ)
    (time : ℚ) : ff_clock_t :=
  ff_clock_set_at clock pts serial time

/-- Embedding of `ff_clock_get` (clock.c lines 14-23): NaN on a serial
mismatch, the stored pts while paused, otherwise the projection
`pts_drift + time - (time - last_updated) * (1 - speed)`. -/
def ff_clock_get (clock : ff_clock_t) (queue_serial : ℤ) (time : ℚ) :
    Option ℚ :=
  if queue_serial ≠ clock.serial then none
  else if clock.paused then clock.pts
  else clock.pts_drift.map
    (fun d => d + time - (time - clock.last_updated) * (1 - clock.speed))

/-- Embedding of `ff_clock_init` (clock.c lines 7-12): speed 1, not
paused, then `set(NAN, -1)` at the current wall time. -/
def ff_clock_init (time : ℚ) : ff_clock_t :=
  ff_clock_set
    { pts := none, pts_drift := none, last_updated := 0,
      speed := 1, paused := false, serial := 0 }
    none (-1) time

/-- Embedding of `ff_clock_set_speed` (clock.c lines 37-40):
re-anchor through `set(get(), serial)` at the current wall time, then
store the new speed. -/
def ff_clock_set_speed (clock : ff_clock_t) (queue_serial : ℤ)
    (time : ℚ) (speed : ℚ) : ff_clock_t :=
  { ff_clock_set clock (ff_clock_get clock queue_serial time) clock.serial time
    with speed := speed }

/-- Embedding of `ff_clock_sync_to_slave` (clock.c lines 42-48): take
the slave's value when it is not NaN and the receiver is NaN or
diverges by more than the threshold. -/
def ff_clock_sync_to_slave (clock slave : ff_clock_t)
    (clock_queue_serial slave_queue_serial : ℤ) (time : ℚ)
    (no_sync_threshold : ℚ) : ff_clock_t :=
  let clock_val := ff_clock_get clock clock_queue_serial time
  let slave_clock := ff_clock_get slave slave_queue_serial time
  match slave_clock with
  | none => clock
  | some s =>
      match clock_val with
      | none => ff_clock_set clock (some s) slave.serial time
      | some c =>
          if |c - s| > no_sync_threshold then
            ff_clock_set clock (some s) slave.serial time
          else clock

/-- Clock states reachable through the clock.c operations starting
from `ff_clock_init`, together with a history flag recording whether
`ff_clock_set_at` has run since init (directly, through
`ff_clock_set`, through `ff_clock_set_speed`, or through a
`ff_clock_sync_to_slave` that fired; the player also writes the
`paused` field directly, e.g. ff_player.c line 1153). -/
inductive ClockReachable : ff_clock_t → Bool → Prop where
  | init (t : ℚ) : ClockReachable (ff_clock_init t) false
  | set (c : ff_clock_t) (b : Bool) (pts : Option ℚ) (serial : ℤ) (t : ℚ) :
      ClockReachable c b → ClockReachable (ff_clock_set c pts serial t) true
  | setSpeed (c : ff_clock_t) (b : Bool) (qs : ℤ) (t sp : ℚ) :
      ClockReachable c b → ClockReachable (ff_clock_set_speed c qs t sp) true
  | setPaused (c : ff_clock_t) (b : Bool) (p : Bool) :
      ClockReachable c b → ClockReachable { c with paused := p } b

/-! ## decoder.c

The codec (`AVCodecContext`) is modelled as an oracle: a list of the
results that successive `avcodec_receive_frame` calls would report,
plus a counter of `avcodec_flush_buffers` calls. -/

/-- One outcome of `avcodec_receive_frame`: a decoded frame (ret ≥ 0),
`AVERROR(EAGAIN)`, `AVERROR_EOF`, or some other error code `e`. -/
inductive RecvRes where
  | frame
  | eagain
  | eof
  | err (e : ℤ)
  deriving DecidableEq, Repr

/-- Control result of the receive loop of `ff_decoder_decode`: either
the enclosing function returns `r`, or control falls through to the
packet-fetch phase (the loop exited on `AVERROR(EAGAIN)`). -/
inductive DecodeStep where
  | ret (r : ℤ)
  | fallthrough
  deriving DecidableEq, Repr

/-- Embedding of the receive phase of `ff_decoder_decode` (decoder.c
lines 86-127), the `do ... while (ret != AVERROR(EAGAIN))` loop run
when the queue serial matches `packet_serial`. Each iteration first
checks the queue's aborted flag (returning -1), then consumes one
receive result: a frame returns 1; `AVERROR_EOF` sets
`finished := packet_serial`, flushes the codec and returns 0;
`AVERROR(EAGAIN)` falls through; any other error loops again.
Returns the control outcome, the new `finished` value, the flush
counter, and the unconsumed part of the codec oracle. -/
def decoder_receive_loop (queue_aborted : Bool) (packet_serial : ℤ)
    (finished : ℤ) (flushed : ℕ) :
    List RecvRes → DecodeStep × ℤ × ℕ × List RecvRes
  | [] =>
      if queue_aborted then (.ret (-1), finished, flushed, [])
      else (.fallthrough, finished, flushed, [])
  | r :: rest =>
      if queue_aborted then (.ret (-1), finished, flushed, r :: rest)
      else
        match r with
        | .frame => (.ret 1, finished, flushed, rest)
        | .eagain => (.fallthrough, finished, flushed, rest)
        | .eof => (.ret 0, packet_serial, flushed + 1, rest)
        | .err _ =>
            decoder_receive_loop queue_aborted packet_serial finished flushed rest

/-- Mutable decoder state observed by `ff_decoder_decode` (decoder.c
lines 13-31): the serial of the packet currently held, the `finished`
marker, and the pending-packet flag. -/
structure ff_decoder_t where
  packet_serial : ℤ
  finished : ℤ
  packet_pending : Bool
  deriving DecidableEq, Repr

/-- Embedding of the packet-fetch phase of `ff_decoder_decode`
(decoder.c lines 130-152): reuse a pending packet or block on
`ff_packet_queue_get`; on a serial change flush the codec and clear
`finished`; drop packets whose serial does not match the live queue
serial. `none` models the blocking call never returning (empty queue,
no interference) or fuel exhaustion; `some (Sum.inl r)` models
`return r`; `some (Sum.inr ...)` is a fetched packet, with the new
decoder state, queue state and flush counter. -/
def decoder_fetch_packet :
    ℕ → ff_decoder_t → ff_packet_queue_t → ℕ →
    Option (ℤ ⊕ (ff_decoder_t × ff_packet_queue_t × ℕ))
  | 0, _, _, _ => none
  | fuel + 1, d, q, flushed =>
      if d.packet_pending then
        let d1 := { d with packet_pending := false }
        if q.serial = d1.packet_serial then some (.inr (d1, q, flushed))
        else decoder_fetch_packet fuel d1 q flushed
      else
        match ff_packet_queue_get q true with
        | (.got p, q1) =>
            let old_serial := d.packet_serial
            let d1 := { d with packet_serial := p.serial }
            let s : ff_decoder_t × ℕ :=
              if old_serial ≠ p.serial then
                ({ d1 with finished := 0 }, flushed + 1)
              else (d1, flushed)
            if q1.serial = s.1.packet_serial then some (.inr (s.1, q1, s.2))
            else decoder_fetch_packet fuel s.1 q1 s.2
        | (_, _) => some (.inl (-1))

/-- Embedding of `ff_decoder_decode` (decoder.c lines 80-168) as one
fuel-bounded pure loop. The codec oracle also carries the results of
`avcodec_send_packet`: `sends` lists, for each send, whether it
reports `AVERROR(EAGAIN)` (making the packet pending). Returns the
C return value with the final decoder state, or `none` when blocked
or out of fuel. -/
def ff_decoder_decode :
    ℕ → ff_decoder_t → ff_packet_queue_t → List RecvRes → ℕ → List Bool →
    Option (ℤ × ff_decoder_t × ℕ)
  | 0, _, _, _, _, _ => none
  | fuel + 1, d, q, recvs, flushed, sends =>
      let afterRecv :=
        if q.serial = d.packet_serial then
          decoder_receive_loop q.aborted d.packet_serial d.finished flushed recvs
        else (.fallthrough, d.finished, flushed, recvs)
      match afterRecv with
      | (.ret r, fin, fl, _) => some (r, { d with finished := fin }, fl)
      | (.fallthrough, fin, fl, recvs1) =>
          let d0 := { d with finished := fin }
          match decoder_fetch_packet (fuel + 1) d0 q fl with
          | none => none
          | some (.inl r) => some (r, d0, fl)
          | some (.inr (d1, q1, fl1)) =>
              match sends with
              | [] => none
              | sendEagain :: sends1 =>
                  let d2 :=
                    if sendEagain then { d1 with packet_pending := true } else d1
                  ff_decoder_decode fuel d2 q1 recvs1 fl1 sends1

/-! ## ff_player.c -/

/-- The cast `(int)x` applied to a C double: truncation toward zero. -/
def cint_of_double (x : ℚ) : ℤ :=
  if 0 ≤ x then ⌊x⌋ else ⌈x⌉

/-- FFmpeg's `av_clip(a, amin, amax)`: `amin` if `a < amin`, `amax` if
`a > amax`, otherwise `a`. -/
def av_clip (a amin amax : ℤ) : ℤ :=
  if a < amin then amin else if a > amax then amax else a

/-- FFmpeg's `FFMAX` on doubles (total on the reals modelled here). -/
def ffmax (a b : ℚ) : ℚ := max a b

/-- FFmpeg's `FFMIN` on doubles. -/
def ffmin (a b : ℚ) : ℚ := min a b

/-- Embedding of `compute_target_delay` (ff_player.c lines 229-247).
`master_is_video` is the test `get_master_sync_type(player) ==
FF_AV_SYNC_VIDEO_MASTER`; `diff` is the value
`ff_clock_get(&player->video_clock) - get_master_clock(player)`, NaN
modelled as `none`; constants: `AV_SYNC_THRESHOLD_MIN = 0.04`,
`AV_SYNC_THRESHOLD_MAX = 0.1`, `AV_SYNC_FRAMEDUP_THRESHOLD = 0.1`. -/
def compute_target_delay (master_is_video : Bool) (diff : Option ℚ)
    (max_frame_duration : ℚ) (delay : ℚ) : ℚ :=
  if master_is_video then delay
  else
    match diff with
    | none => delay
    | some d =>
        let sync_threshold := ffmax (4/100) (ffmin (1/10) delay)
        if |d| < max_frame_duration then
          if d ≤ -sync_threshold then ffmax 0 (delay + d)
          else if d ≥ sync_threshold ∧ delay > 1/10 then delay + d
          else if d ≥ sync_threshold then 2 * delay
          else delay
        else delay

/-- Embedding of `check_external_clock_speed` (ff_player.c lines
174-187) restricted to its effect on the external clock's speed (the
re-anchoring side effect of `ff_clock_set_speed` is the clock model's
business). Inputs are the two stream indices, the two packet-queue
counts, and the current speed; constants:
`EXTERNAL_CLOCK_MIN_FRAMES = 2`, `EXTERNAL_CLOCK_MAX_FRAMES = 10`,
`EXTERNAL_CLOCK_SPEED_MIN = 0.900`, `EXTERNAL_CLOCK_SPEED_MAX =
1.010`, `EXTERNAL_CLOCK_SPEED_STEP = 0.001`. -/
def check_external_clock_speed (video_stream_index audio_stream_index : ℤ)
    (video_count audio_count : ℤ) (speed : ℚ) : ℚ :=
  if (0 ≤ video_stream_index ∧ video_count ≤ 2) ∨
     (0 ≤ audio_stream_index ∧ audio_count ≤ 2) then
    ffmax (900/1000) (speed - 1/1000)
  else if (video_stream_index < 0 ∨ video_count > 10) ∧
          (audio_stream_index < 0 ∨ audio_count > 10) then
    ffmin (1010/1000) (speed + 1/1000)
  else if speed ≠ 1 then
    speed + (1/1000) * (1 - speed) / |1 - speed|
  else speed

/-- Stated from the claim's words, for comparison with
`check_external_clock_speed`: identical except that the slow-down
branch fires when some open stream's count is strictly below 2. -/
def claimed_check_external_clock_speed
    (video_stream_index audio_stream_index : ℤ)
    (video_count audio_count : ℤ) (speed : ℚ) : ℚ :=
  if (0 ≤ video_stream_index ∧ video_count < 2) ∨
     (0 ≤ audio_stream_index ∧ audio_count < 2) then
    ffmax (900/1000) (speed - 1/1000)
  else if (video_stream_index < 0 ∨ video_count > 10) ∧
          (audio_stream_index < 0 ∨ audio_count > 10) then
    ffmin (1010/1000) (speed + 1/1000)
  else if speed ≠ 1 then
    speed + (1/1000) * (1 - speed) / |1 - speed|
  else speed

/-- Stated from the claim's words, for comparison with the sample
adjustment inside `synchronize_audio`: the nominal count adjusted by
`round(diff * source_sample_rate)` clamped to 90 to 110 percent of
the nominal count. -/
def claimed_adjusted_sample_count (diff : ℚ) (freq sample_count : ℤ) : ℤ :=
  av_clip (sample_count + round (diff * (freq : ℚ)))
    (Int.tdiv (sample_count * 90) 100) (Int.tdiv (sample_count * 110) 100)

/-- Embedding of `synchronize_audio` (ff_player.c lines 1398-1427).
`master_is_audio` is the test `get_master_sync_type(player) ==
FF_AV_SYNC_AUDIO_MASTER`; `diff` is
`ff_clock_get(&player->audio_clock) - get_master_clock(player)` (NaN
as `none`); `coef`, `cum`, `count`, `threshold` are the player fields
`audio_diff_avg_coef`, `audio_diff_cum`, `audio_diff_avg_count`,
`audio_diff_threshold`; `freq` is `audio_source.freq`. Constants:
`AV_NOSYNC_THRESHOLD = 10`, `AUDIO_DIFF_AVG_NB = 20`,
`SAMPLE_CORRECTION_PERCENT_MAX = 10`. The sample adjustment uses the
C cast `(int)(diff * freq)`, and the clamp bounds use C integer
division `sample_count * 90 / 100` and `sample_count * 110 / 100`.
Returns `wanted_sample_count` with the updated `(cum, count)` pair. -/
def synchronize_audio (master_is_audio : Bool) (diff : Option ℚ)
    (coef cum threshold : ℚ) (count : ℤ) (freq : ℤ)
    (sample_count : ℤ) : ℤ × ℚ × ℤ :=
  if master_is_audio then (sample_count, cum, count)
  else
    match diff with
    | none => (sample_count, 0, 0)
    | some d =>
        if |d| < 10 then
          let cum1 := d + coef * cum
          if count < 20 then (sample_count, cum1, count + 1)
          else
            let avg_diff := cum1 * (1 - coef)
            if |avg_diff| ≥ threshold then
              let wanted := sample_count + cint_of_double (d * freq)
              let min_nb := Int.tdiv (sample_count * (100 - 10)) 100
              let max_nb := Int.tdiv (sample_count * (100 + 10)) 100
              (av_clip wanted min_nb max_nb, cum1, count)
            else (sample_count, cum1, count)
        else (sample_count, 0, 0)

/-- The per-stream data consulted by `stream_has_enough_packets`: the
stream index the player holds for it, the packet queue's aborted
flag, count and duration, the `AV_DISPOSITION_ATTACHED_PIC` bit, and
the stream time base (an `AVRational`, exactly a rational). -/
structure StreamQueueView where
  stream_index : ℤ
  aborted : Bool
  attached_pic : Bool
  packet_count : ℤ
  duration : ℤ
  time_base : ℚ
  deriving DecidableEq, Repr

/-- Embedding of `stream_has_enough_packets` (ff_player.c lines
930-935): true when the stream is absent, the queue is aborted, the
stream is an attached picture, or the packet count exceeds
`MIN_FRAMES = 10` and the queued duration is 0 ticks or converts to
more than one second. -/
def stream_has_enough_packets (s : StreamQueueView) : Bool :=
  decide (s.stream_index < 0) || s.aborted || s.attached_pic ||
  (decide (s.packet_count > 10) &&
   (decide (s.duration = 0) || decide (s.time_base * s.duration > 1)))

/-- Embedding of the suspension condition of the read loop
(ff_player.c lines 1329-1331): the demuxer performs the 10 ms timed
wait and restarts the loop exactly when the aggregate queued byte
size exceeds `MAX_QUEUE_SIZE = 15 * 1024 * 1024` or both streams have
enough packets. -/
def read_loop_suspends (audio video : StreamQueueView)
    (audio_queue_size video_queue_size : ℤ) : Bool :=
  decide (audio_queue_size + video_queue_size > 15 * 1024 * 1024) ||
  (stream_has_enough_packets audio && stream_has_enough_packets video)

/-- Stated from the claim's words, for comparison with
`read_loop_suspends`: reading suspends when the aggregate size
exceeds 15 MiB or either queue has more than 10 packets and more than
one second of queued media. -/
def claimed_read_loop_suspends (audio video : StreamQueueView)
    (audio_queue_size video_queue_size : ℤ) : Prop :=
  audio_queue_size + video_queue_size > 15 * 1024 * 1024 ∨
  (audio.packet_count > 10 ∧ audio.time_base * audio.duration > 1) ∨
  (video.packet_count > 10 ∧ video.time_base * video.duration > 1)

instance (a v : StreamQueueView) (sa sv : ℤ) :
    Decidable (claimed_read_loop_suspends a v sa sv) := by
  unfold claimed_read_loop_suspends
  infer_instance

/-! ## Theorems -/

/-- C6: after `ff_packet_queue_flush` returns on any queue, the queue
holds no packets, its packet count is 0, its byte size is 0, its
duration is 0, and its serial is strictly greater than before. -/
theorem C6_flush_resets_counters_and_bumps_serial (q : ff_packet_queue_t) :
    (ff_packet_queue_flush q).packets = [] ∧
    (ff_packet_queue_flush q).packet_count = 0 ∧
    (ff_packet_queue_flush q).size = 0 ∧
    (ff_packet_queue_flush q).duration = 0 ∧
    q.serial < (ff_packet_queue_flush q).serial := by
  refine ⟨rfl, rfl, rfl, rfl, ?_⟩
  show q.serial < q.serial + 1
  exact lt_add_one q.serial

/-- C10: a queue out of `ff_packet_queue_create` starts aborted;
on any aborted queue every put fails with a negative result leaving
the state unchanged, and every get -- for either value of `block` and
whatever packets are stored -- returns the abort signal with the
state unchanged. -/
theorem C10_created_queue_rejects_all_io :
    ff_packet_queue_create.aborted = true ∧
    (∀ q pkt, q.aborted = true →
      (ff_packet_queue_put q pkt).1 < 0 ∧ (ff_packet_queue_put q pkt).2 = q) ∧
    (∀ q block, q.aborted = true →
      ff_packet_queue_get q block = (.abort, q)) := by
  refine ⟨rfl, ?_, ?_⟩
  · intro q pkt h
    constructor <;> simp [ff_packet_queue_put, packet_queue_put_private, h]
  · intro q block h
    simp [ff_packet_queue_get, h]

/-- Witness for C10 at the freshly created queue. -/
theorem C10_created_queue_rejects_all_io_witness :
    (ff_packet_queue_put ff_packet_queue_create
        { size := 4, duration := 2 }).1 < 0 ∧
    (ff_packet_queue_put ff_packet_queue_create
        { size := 4, duration := 2 }).2 = ff_packet_queue_create ∧
    ff_packet_queue_get ff_packet_queue_create true =
      (.abort, ff_packet_queue_create) :=
  ⟨(C10_created_queue_rejects_all_io.2.1 _ _ rfl).1,
   (C10_created_queue_rejects_all_io.2.1 _ _ rfl).2,
   C10_created_queue_rejects_all_io.2.2 _ true rfl⟩

/-- C7: every packet stored in a reachable queue carries a serial at
most the queue's serial, and no queue operation ever decreases the
queue serial (put, get and abort keep it, flush and start increment
it). -/
theorem C7_stored_serials_bounded_by_queue_serial :
    (∀ q, QueueReachable q → ∀ p ∈ q.packets, p.serial ≤ q.serial) ∧
    (∀ q pkt, q.serial ≤ (packet_queue_put_private q pkt).2.serial) ∧
    (∀ q block, q.serial ≤ (ff_packet_queue_get q block).2.serial) ∧
    (∀ q, q.serial ≤ (ff_packet_queue_flush q).serial) ∧
    (∀ q, q.serial ≤ (ff_packet_queue_start q).serial) ∧
    (∀ q, q.serial ≤ (ff_packet_queue_abort q).serial) := by
  refine ⟨?_, ?_, ?_, ?_, ?_, ?_⟩
  · intro q hq
    induction hq with
    | create => intro p hp; simp [ff_packet_queue_create] at hp
    | put q pkt hq ih =>
        by_cases ha : q.aborted
        · simpa [packet_queue_put_private, ha] using ih
        · intro p hp
          simp only [packet_queue_put_private, ha, Bool.false_eq_true,
            if_false, List.mem_append, List.mem_singleton] at hp ⊢
          rcases hp with hp | hp
          · exact ih p hp
          · subst hp; exact le_refl _
    | get q block hq ih =>
        by_cases ha : q.aborted
        · simpa [ff_packet_queue_get, ha] using ih
        · rcases hqp : q.packets with _ | ⟨p0, rest⟩
          · by_cases hb : block <;>
              · simp only [ff_packet_queue_get, ha, hqp, hb]
                simpa using ih
          · intro p hp
            simp only [ff_packet_queue_get, ha, Bool.false_eq_true, if_false,
              hqp] at hp ⊢
            exact ih p (by rw [hqp]; exact List.mem_cons_of_mem _ hp)
    | flush q hq ih => intro p hp; simp [ff_packet_queue_flush] at hp
    | start q hq ih =>
        intro p hp
        simp only [ff_packet_queue_start] at hp ⊢
        exact le_trans (ih p hp) (by omega)
    | abort q hq ih => intro p hp; exact ih p hp
  · intro q pkt
    by_cases ha : q.aborted <;> simp [packet_queue_put_private, ha]
  · intro q block
    by_cases ha : q.aborted
    · simp [ff_packet_queue_get, ha]
    · rcases hqp : q.packets with _ | ⟨p0, rest⟩
      · by_cases hb : block <;> simp [ff_packet_queue_get, ha, hqp, hb]
      · simp [ff_packet_queue_get, ha, hqp]
  · intro q; exact le_of_lt (lt_add_one _)
  · intro q; exact le_of_lt (lt_add_one _)
  · intro q; exact le_refl _

/-- Witness for C7 on the reachable queue obtained by starting a
fresh queue and putting one packet: the stored packet carries
serial 1, equal to the queue serial. -/
theorem C7_stored_serials_bounded_by_queue_serial_witness :
    ({ base := { size := 4, duration := 2 }, serial := 1 } : packet_t).serial ≤
      (packet_queue_put_private (ff_packet_queue_start ff_packet_queue_create)
        { size := 4, duration := 2 }).2.serial :=
  C7_stored_serials_bounded_by_queue_serial.1 _
    (QueueReachable.put _ _ (QueueReachable.start _ QueueReachable.create))
    _ (by decide)

/-- C8: when the codec reports `AVERROR_EOF` during the receive phase
of `ff_decoder_decode` (possibly after other non-EAGAIN errors that
keep the loop spinning), the decoder sets `finished` to the current
`packet_serial`, flushes the codec exactly once, and the function
returns 0, never a negative error, leaving the rest of the codec
oracle untouched. -/
theorem C8_decoder_eof_sets_finished_and_returns_zero
    (errs rest : List RecvRes) (packet_serial finished : ℤ) (flushed : ℕ)
    (herr : ∀ r ∈ errs, ∃ e, r = RecvRes.err e) :
    decoder_receive_loop false packet_serial finished flushed
        (errs ++ RecvRes.eof :: rest) =
      (.ret 0, packet_serial, flushed + 1, rest) := by
  induction errs with
  | nil => simp [decoder_receive_loop]
  | cons r rs ih =>
      obtain ⟨e, he⟩ := herr r (List.mem_cons_self r rs)
      subst he
      simpa [decoder_receive_loop] using
        ih (fun x hx => herr x (List.mem_cons_of_mem _ hx))

/-- Witness for C8: one stray decode error followed by EOF. -/
theorem C8_decoder_eof_sets_finished_and_returns_zero_witness :
    decoder_receive_loop false 7 0 0 [RecvRes.err (-5), RecvRes.eof] =
      (.ret 0, 7, 1, []) :=
  C8_decoder_eof_sets_finished_and_returns_zero [RecvRes.err (-5)] [] 7 0 0
    (by intro r hr; simp at hr; exact ⟨-5, hr⟩)

/-- C9: for every clock state, every live queue serial and every wall
time, `ff_clock_set_speed` followed by `ff_clock_get` at that instant
returns exactly what `ff_clock_get` returned before (the model's
exact arithmetic counterpart of equality within float epsilon). -/
theorem C9_set_speed_preserves_projected_value (c : ff_clock_t)
    (queue_serial : ℤ) (time speed : ℚ) :
    ff_clock_get (ff_clock_set_speed c queue_serial time speed) queue_serial time =
      ff_clock_get c queue_serial time := by
  by_cases hqs : queue_serial = c.serial
  · by_cases hp : c.paused
    · simp [ff_clock_set_speed, ff_clock_set, ff_clock_set_at, ff_clock_get,
        hqs, hp]
    · rcases hd : c.pts_drift with _ | d
      · simp [ff_clock_set_speed, ff_clock_set, ff_clock_set_at, ff_clock_get,
          hqs, hp, hd]
      · simp only [ff_clock_set_speed, ff_clock_set, ff_clock_set_at,
          ff_clock_get, hqs, hp, hd, ne_eq, not_true_eq_false, if_false,
          Bool.false_eq_true, Option.map_some]
        simp only [Option.map_some']
        congr 1
        ring
  · simp [ff_clock_set_speed, ff_clock_set, ff_clock_set_at, ff_clock_get, hqs]

/-- C1: `compute_target_delay` returns the nominal delay unchanged
when the master sync type is video, when the video-master clock
difference is NaN, and when its magnitude reaches
`max_frame_duration`; otherwise with threshold
`T = clamp(delay, 0.04, 0.1)` it returns `max(0, delay + diff)` for
`diff ≤ -T`, `delay + diff` for `diff ≥ T` with `delay > 0.1`,
`2 * delay` for `diff ≥ T` with `delay ≤ 0.1`, and `delay` in every
remaining case. -/
theorem C1_compute_target_delay_cases (d mfd diff : ℚ) :
    (∀ dopt, compute_target_delay true dopt mfd d = d) ∧
    (compute_target_delay false none mfd d = d) ∧
    (|diff| ≥ mfd → compute_target_delay false (some diff) mfd d = d) ∧
    (|diff| < mfd →
      ((diff ≤ -(ffmax (4/100) (ffmin (1/10) d)) →
          compute_target_delay false (some diff) mfd d = ffmax 0 (d + diff)) ∧
       (diff ≥ ffmax (4/100) (ffmin (1/10) d) → d > 1/10 →
          compute_target_delay false (some diff) mfd d = d + diff) ∧
       (diff ≥ ffmax (4/100) (ffmin (1/10) d) → d ≤ 1/10 →
          compute_target_delay false (some diff) mfd d = 2 * d) ∧
       (-(ffmax (4/100) (ffmin (1/10) d)) < diff →
        diff < ffmax (4/100) (ffmin (1/10) d) →
          compute_target_delay false (some diff) mfd d = d))) := by
  have hT4 : (4/100 : ℚ) ≤ ffmax (4/100) (ffmin (1/10) d) := le_max_left _ _
  have hT0 : (0 : ℚ) < ffmax (4/100) (ffmin (1/10) d) :=
    lt_of_lt_of_le (by norm_num) hT4
  refine ⟨fun dopt => rfl, rfl, ?_, ?_⟩
  · intro h
    simp only [compute_target_delay, Bool.false_eq_true, if_false]
    rw [if_neg (not_lt.mpr h)]
  · intro hlt
    refine ⟨?_, ?_, ?_, ?_⟩
    · intro h1
      simp only [compute_target_delay, Bool.false_eq_true, if_false]
      rw [if_pos hlt, if_pos h1]
    · intro h1 h2
      simp only [compute_target_delay, Bool.false_eq_true, if_false]
      rw [if_pos hlt, if_neg (not_le.mpr (by linarith)), if_pos ⟨h1, h2⟩]
    · intro h1 h2
      simp only [compute_target_delay, Bool.false_eq_true, if_false]
      rw [if_pos hlt, if_neg (not_le.mpr (by linarith)),
        if_neg (fun hc => absurd hc.2 (not_lt.mpr h2)), if_pos h1]
    · intro h1 h2
      simp only [compute_target_delay, Bool.false_eq_true, if_false]
      rw [if_pos hlt, if_neg (not_le.mpr h1), if_neg (fun hc => absurd hc.1
        (not_le.mpr h2)), if_neg (not_le.mpr h2)]

/-- Witness for C1 on the frame-duplication branch: difference 1/4
against threshold 1/10 with delay 1/2. -/
theorem C1_compute_target_delay_cases_witness :
    compute_target_delay false (some (1/4)) 1 (1/2) = 1/2 + 1/4 :=
  ((C1_compute_target_delay_cases (1/2) 1 (1/4)).2.2.2
      (by rw [abs_of_nonneg (by norm_num : (0:ℚ) ≤ 1/4)]; norm_num)).2.1
    (by simp only [ffmax, ffmin]; norm_num) (by norm_num)

/-- Every reachable clock state keeps the relation
`pts_drift = pts - last_updated` (NaN propagating), the §3 relation
the spec states; it holds after init and is re-established by every
setter. -/
theorem ClockReachable.pts_drift_eq {c : ff_clock_t} {b : Bool}
    (h : ClockReachable c b) :
    c.pts_drift = c.pts.map (fun p => p - c.last_updated) := by
  induction h with
  | init t => rfl
  | set c b pts serial t _ _ => rfl
  | setSpeed c b qs t sp _ _ => rfl
  | setPaused c b p _ ih => exact ih

/-- Counterexample to C2 as stated: the player does call
`ff_clock_set` with a NaN pts (ff_player.c line 1307 after a by-byte
seek), and on the resulting state the stored serial can equal the
live queue serial while the clock has been set since init, yet
`ff_clock_get` still returns NaN. -/
theorem C2_cex_set_since_init_yet_nan :
    ClockReachable (ff_clock_set (ff_clock_init 0) none 5 1) true ∧
    (ff_clock_set (ff_clock_init 0) none 5 1).serial = 5 ∧
    ff_clock_get (ff_clock_set (ff_clock_init 0) none 5 1) 5 2 = none := by
  refine ⟨ClockReachable.set _ _ _ _ _ (ClockReachable.init 0), rfl, ?_⟩
  simp [ff_clock_get, ff_clock_set, ff_clock_set_at, ff_clock_init]

/-- C2 (amended): on every reachable clock state, `ff_clock_get`
returns NaN exactly when the stored serial differs from the live
queue serial or the stored pts is NaN (which is the state init leaves
and every set with a non-NaN pts clears); when the serials agree the
clock returns the stored pts while paused and otherwise the
projection, which equals `pts + (t - last_updated) * speed`. -/
theorem C2_clock_get_nan_iff_stale_or_nan_pts (c : ff_clock_t) (b : Bool)
    (h : ClockReachable c b) (queue_serial : ℤ) (time : ℚ) :
    (ff_clock_get c queue_serial time = none ↔
      c.serial ≠ queue_serial ∨ c.pts = none) ∧
    (c.serial = queue_serial → c.paused = true →
      ff_clock_get c queue_serial time = c.pts) ∧
    (c.serial = queue_serial → c.paused = false →
      ff_clock_get c queue_serial time =
        c.pts.map (fun p => p + (time - c.last_updated) * c.speed)) := by
  have hd := h.pts_drift_eq
  by_cases hqs : queue_serial = c.serial
  · by_cases hp : c.paused
    · refine ⟨?_, fun _ _ => ?_, fun _ hpf => absurd hp (by simp [hpf])⟩
      · simp [ff_clock_get, hqs, hp]
      · simp [ff_clock_get, hqs, hp]
    · refine ⟨?_, fun _ hpt => absurd hpt hp, fun _ _ => ?_⟩
      · rcases hpts : c.pts with _ | p
        · have hdn : c.pts_drift = none := by rw [hd, hpts]; rfl
          simp [ff_clock_get, hqs, hp, hpts, hdn]
        · have hds : c.pts_drift = some (p - c.last_updated) := by
            rw [hd, hpts]; rfl
          simp [ff_clock_get, hqs, hp, hpts, hds]
      · rcases hpts : c.pts with _ | p
        · have hdn : c.pts_drift = none := by rw [hd, hpts]; rfl
          simp [ff_clock_get, hqs, hp, hpts, hdn]
        · have hds : c.pts_drift = some (p - c.last_updated) := by
            rw [hd, hpts]; rfl
          simp only [ff_clock_get, hqs, hp, hds, hpts, ne_eq,
            not_true_eq_false, if_false, Bool.false_eq_true,
            Option.map_some']
          congr 1
          ring
  · refine ⟨?_, fun heq _ => absurd heq.symm hqs, fun heq _ => absurd heq.symm hqs⟩
    rw [ff_clock_get, if_pos hqs]
    exact ⟨fun _ => Or.inl (Ne.symm hqs), fun _ => rfl⟩

/-- Witness for C2 (amended) on a clock set to pts 7 at time 1 with
serial 3, read at time 2 against live serial 3. -/
theorem C2_clock_get_nan_iff_stale_or_nan_pts_witness :
    ff_clock_get (ff_clock_set (ff_clock_init 0) (some 7) 3 1) 3 2 =
      (ff_clock_set (ff_clock_init 0) (some 7) 3 1).pts.map
        (fun p => p + (2 - (ff_clock_set (ff_clock_init 0) (some 7) 3 1).last_updated) *
          (ff_clock_set (ff_clock_init 0) (some 7) 3 1).speed) :=
  (C2_clock_get_nan_iff_stale_or_nan_pts _ true
      (ClockReachable.set _ _ _ _ _ (ClockReachable.init 0)) 3 2).2.2 rfl rfl

/-- Counterexample to C3 as stated: the code adjusts by the C cast
`(int)(diff * freq)` which truncates toward zero, not by
`round(diff * freq)`. At diff 0.0035 and freq 1000 the code emits
103 samples while the claimed rounding gives 104. -/
theorem C3_cex_truncation_not_rounding :
    (synchronize_audio false (some (7/2000)) (1/2) 0 (1/1000) 20 1000 100).1 =
      103 ∧
    claimed_adjusted_sample_count (7/2000) 1000 100 = 104 := by
  have hval : (7/2000 : ℚ) * ((1000 : ℤ) : ℚ) = 7/2 := by push_cast; ring
  constructor
  · simp only [synchronize_audio, Bool.false_eq_true, if_false]
    rw [if_pos (show |(7/2000 : ℚ)| < 10 by
          rw [abs_of_nonneg (by norm_num : (0:ℚ) ≤ 7/2000)]; norm_num),
        if_neg (show ¬((20:ℤ) < 20) by norm_num),
        if_pos (show |((7:ℚ)/2000 + 1/2 * 0) * (1 - 1/2)| ≥ 1/1000 by
          rw [abs_of_nonneg (by norm_num :
            (0:ℚ) ≤ (7/2000 + 1/2 * 0) * (1 - 1/2))]; norm_num)]
    have h3 : cint_of_double (7/2000 * ((1000 : ℤ) : ℚ)) = 3 := by
      rw [cint_of_double, if_pos (by rw [hval]; norm_num), hval]
      rw [Int.floor_eq_iff]
      norm_num
    show av_clip (100 + cint_of_double (7/2000 * ((1000 : ℤ) : ℚ)))
        (Int.tdiv (100 * (100 - 10)) 100) (Int.tdiv (100 * (100 + 10)) 100) = 103
    rw [h3]
    decide
  · rw [claimed_adjusted_sample_count, hval]
    have h4 : round ((7:ℚ)/2) = 4 := by
      rw [round_eq, show (7:ℚ)/2 + 1/2 = ((4:ℤ) : ℚ) by push_cast; norm_num,
        Int.floor_intCast]
    rw [h4]
    decide

/-- C3 (amended): with master not audio, `synchronize_audio` keeps the
EMA `cum := diff + coef * cum`; a NaN diff or `|diff| ≥ 10` resets the
accumulator and returns the nominal count; below 20 accumulated
observations it counts the observation and returns the nominal count;
from 20 observations on, when `|cum * (1 - coef)|` reaches the
threshold it returns the nominal count adjusted by the C cast
`(int)(diff * freq)` (truncation toward zero) clamped to 90 to 110
percent of the nominal count (C integer division), and otherwise the
nominal count unchanged; with master audio everything is untouched. -/
theorem C3_synchronize_audio_cases (diff : ℚ) (coef cum threshold : ℚ)
    (count freq sample_count : ℤ) :
    (∀ dopt, synchronize_audio true dopt coef cum threshold count freq
        sample_count = (sample_count, cum, count)) ∧
    (synchronize_audio false none coef cum threshold count freq sample_count =
      (sample_count, 0, 0)) ∧
    (|diff| ≥ 10 →
      synchronize_audio false (some diff) coef cum threshold count freq
        sample_count = (sample_count, 0, 0)) ∧
    (|diff| < 10 → count < 20 →
      synchronize_audio false (some diff) coef cum threshold count freq
        sample_count = (sample_count, diff + coef * cum, count + 1)) ∧
    (|diff| < 10 → count ≥ 20 →
      |(diff + coef * cum) * (1 - coef)| ≥ threshold →
      synchronize_audio false (some diff) coef cum threshold count freq
        sample_count =
        (av_clip (sample_count + cint_of_double (diff * freq))
          (Int.tdiv (sample_count * 90) 100)
          (Int.tdiv (sample_count * 110) 100),
         diff + coef * cum, count)) ∧
    (|diff| < 10 → count ≥ 20 →
      |(diff + coef * cum) * (1 - coef)| < threshold →
      synchronize_audio false (some diff) coef cum threshold count freq
        sample_count = (sample_count, diff + coef * cum, count)) := by
  refine ⟨fun dopt => rfl, rfl, ?_, ?_, ?_, ?_⟩
  · intro h
    simp only [synchronize_audio, Bool.false_eq_true, if_false]
    rw [if_neg (not_lt.mpr h)]
  · intro h1 h2
    simp only [synchronize_audio, Bool.false_eq_true, if_false]
    rw [if_pos h1, if_pos h2]
  · intro h1 h2 h3
    simp only [synchronize_audio, Bool.false_eq_true, if_false]
    rw [if_pos h1, if_neg (not_lt.mpr h2), if_pos h3]
    norm_num
  · intro h1 h2 h3
    simp only [synchronize_audio, Bool.false_eq_true, if_false]
    rw [if_pos h1, if_neg (not_lt.mpr h2), if_neg (not_le.mpr h3)]

/-- Witness for C3 (amended) on the adjustment branch. -/
theorem C3_synchronize_audio_cases_witness :
    synchronize_audio false (some (7/2000)) (1/2) 0 (1/1000) 20 1000 100 =
      (av_clip (100 + cint_of_double (7/2000 * ((1000 : ℤ) : ℚ)))
        (Int.tdiv (100 * 90) 100) (Int.tdiv (100 * 110) 100),
       7/2000 + 1/2 * 0, 20) :=
  (C3_synchronize_audio_cases (7/2000) (1/2) 0 (1/1000) 20 1000 100).2.2.2.2.1
    (by rw [abs_of_nonneg (by norm_num : (0:ℚ) ≤ 7/2000)]; norm_num)
    (le_refl 20)
    (by rw [abs_of_nonneg (by norm_num : (0:ℚ) ≤ (7/2000 + 1/2 * 0) * (1 - 1/2))]
        norm_num)

/-- Counterexample to C4 as stated: with the video stream open at
exactly 2 queued packets, no audio stream, and speed exactly 1, the
code takes the slow-down branch (`count <= EXTERNAL_CLOCK_MIN_FRAMES`)
and lowers the speed to 0.999, while the claimed reading (count
strictly below 2) falls to the drift branch and leaves speed 1. -/
theorem C4_cex_count_two_slows_clock :
    check_external_clock_speed 0 (-1) 2 0 1 = 999/1000 ∧
    claimed_check_external_clock_speed 0 (-1) 2 0 1 = 1 := by
  constructor
  · rw [check_external_clock_speed,
      if_pos (Or.inl ⟨le_refl (0:ℤ), le_refl (2:ℤ)⟩), ffmax,
      max_eq_right (by norm_num : (900/1000 : ℚ) ≤ 1 - 1/1000)]
    norm_num
  · rw [claimed_check_external_clock_speed,
      if_neg (by rintro (⟨h1, h2⟩ | ⟨h1, h2⟩) <;> omega),
      if_neg (by rintro ⟨h1 | h1, h2⟩ <;> omega),
      if_neg (fun hh => hh rfl)]

/-- C4 (amended): the slow-down branch fires when some open stream's
packet count is at or below 2 (not strictly below), lowering the
speed by 0.001 bounded below by 0.900; otherwise when every open
stream's count exceeds 10 the speed rises by 0.001 bounded above by
1.010; otherwise the speed moves toward 1 by 0.001 in the direction
of `sign(1 - speed)`, staying unchanged at exactly 1. -/
theorem C4_check_external_clock_speed_cases (vi ai vc ac : ℤ) (s : ℚ) :
    (((0 ≤ vi ∧ vc ≤ 2) ∨ (0 ≤ ai ∧ ac ≤ 2)) →
      check_external_clock_speed vi ai vc ac s =
        ffmax (900/1000) (s - 1/1000)) ∧
    (¬((0 ≤ vi ∧ vc ≤ 2) ∨ (0 ≤ ai ∧ ac ≤ 2)) →
     ((vi < 0 ∨ vc > 10) ∧ (ai < 0 ∨ ac > 10)) →
      check_external_clock_speed vi ai vc ac s =
        ffmin (1010/1000) (s + 1/1000)) ∧
    (¬((0 ≤ vi ∧ vc ≤ 2) ∨ (0 ≤ ai ∧ ac ≤ 2)) →
     ¬((vi < 0 ∨ vc > 10) ∧ (ai < 0 ∨ ac > 10)) →
      ((s < 1 → check_external_clock_speed vi ai vc ac s = s + 1/1000) ∧
       (s > 1 → check_external_clock_speed vi ai vc ac s = s - 1/1000) ∧
       (s = 1 → check_external_clock_speed vi ai vc ac s = s))) := by
  refine ⟨?_, ?_, ?_⟩
  · intro h1
    rw [check_external_clock_speed, if_pos h1]
  · intro h1 h2
    rw [check_external_clock_speed, if_neg h1, if_pos h2]
  · intro h1 h2
    have hsub : (1:ℚ) - s ≠ 0 → check_external_clock_speed vi ai vc ac s =
        s + 1/1000 * (1 - s) / |1 - s| := by
      intro hne
      rw [check_external_clock_speed, if_neg h1, if_neg h2,
        if_pos (fun hh => hne (by rw [hh]; ring))]
    refine ⟨?_, ?_, ?_⟩
    · intro hs
      have hne : (1:ℚ) - s ≠ 0 := by intro hh; nlinarith [hh]
      rw [hsub hne, abs_of_pos (by linarith : (0:ℚ) < 1 - s),
        mul_div_assoc, div_self hne, mul_one]
    · intro hs
      have hne : (1:ℚ) - s ≠ 0 := by intro hh; nlinarith [hh]
      rw [hsub hne, abs_of_neg (by linarith : (1:ℚ) - s < 0), div_neg,
        mul_div_assoc, div_self hne, mul_one]
      ring
    · intro hs
      subst hs
      rw [check_external_clock_speed, if_neg h1, if_neg h2,
        if_neg (fun hh => hh rfl)]

/-- Witness for C4 (amended) on the slow-down branch with one queued
video packet. -/
theorem C4_check_external_clock_speed_cases_witness :
    check_external_clock_speed 0 (-1) 1 0 1 = ffmax (900/1000) (1 - 1/1000) :=
  (C4_check_external_clock_speed_cases 0 (-1) 1 0 1).1
    (Or.inl ⟨by norm_num, by norm_num⟩)

/-- Counterexample to C5 as stated: the audio queue alone has enough
packets (11 packets, 2 seconds queued at time base 1) while the video
queue is empty, yet the read loop does not suspend, because the code
requires both streams to have enough packets, not either. -/
theorem C5_cex_one_sided_enough_does_not_suspend :
    read_loop_suspends
      { stream_index := 0, aborted := false, attached_pic := false,
        packet_count := 11, duration := 2, time_base := 1 }
      { stream_index := 1, aborted := false, attached_pic := false,
        packet_count := 0, duration := 0, time_base := 1 } 0 0 = false ∧
    claimed_read_loop_suspends
      { stream_index := 0, aborted := false, attached_pic := false,
        packet_count := 11, duration := 2, time_base := 1 }
      { stream_index := 1, aborted := false, attached_pic := false,
        packet_count := 0, duration := 0, time_base := 1 } 0 0 := by
  constructor
  · simp only [read_loop_suspends, stream_has_enough_packets]
    norm_num
  · refine Or.inr (Or.inl ⟨by norm_num, ?_⟩)
    push_cast
    norm_num

/-- C5 (amended): the read loop suspends (10 ms timed wait on the
continue condvar, then restart) exactly when the aggregate queued
byte size exceeds 15 MiB or both streams have enough packets, where a
stream has enough when it is absent, its queue is aborted, it is an
attached picture, or its queue holds more than 10 packets whose
queued duration is 0 ticks or converts to more than one second. -/
theorem C5_read_suspends_iff (a v : StreamQueueView) (sa sv : ℤ) :
    read_loop_suspends a v sa sv = true ↔
      (sa + sv > 15 * 1024 * 1024 ∨
       ((a.stream_index < 0 ∨ a.aborted = true ∨ a.attached_pic = true ∨
           (a.packet_count > 10 ∧
            (a.duration = 0 ∨ a.time_base * a.duration > 1))) ∧
        (v.stream_index < 0 ∨ v.aborted = true ∨ v.attached_pic = true ∨
           (v.packet_count > 10 ∧
            (v.duration = 0 ∨ v.time_base * v.duration > 1))))) := by
  simp [read_loop_suspends, stream_has_enough_packets, Bool.or_eq_true,
    Bool.and_eq_true, decide_eq_true_eq, or_assoc]

end FFPlayer
